import Mathlib

/-!
Shallow embedding of the FreshFin monthly finance aggregator.

The repository is a React front-end; we embed the pure computational core:
the monthly aggregation (`stats`, `chartData`, `categoryStats`) of the newer
`App` (the one with month navigation via `viewDate`), the corresponding
functions of the older `App` (current-month only), and the state-updating
handlers `handleAddTransaction` and `saveBudget`.

Modelling conventions:
* JavaScript `number` amounts and budgets become `ℚ` (exact arithmetic;
  the spec's floating tolerances are satisfied by exact equality).
* Dates `YYYY-MM-DD` strings become a structured `Date` record; the code's
  `t.date.startsWith(currentMonthStr)` becomes equality of year and month,
  and `parseInt(t.date.split('-')[2])` becomes the `day` field — faithful
  for well-formed dates, which the data model guarantees.
* The JS `Map`/object day buckets become a total function `ℕ → ℚ × ℚ`
  defaulting to `(0, 0)`, matching the `dayMap.get(day) || {income:0,expense:0}`
  read default; entries the code writes outside the initialized range are
  never read back, so the total-function view is observationally identical.
* `Array.prototype.sort` with comparator `(a, b) => b.amount - a.amount`
  is a stable descending sort; `List.insertionSort` with the relation
  `fun a b => b.amount ≤ a.amount` implements exactly that (an element is
  inserted before the first element with less-or-equal amount, hence after
  all earlier equal-amount elements).
* `parseFloat` of user input is modelled by its result, `Option ℚ`
  (`none` for an empty or non-numeric string, i.e. the NaN case).
-/

namespace FreshFin

/-- Transaction type enumeration from `types.ts`. -/
inductive TransactionType where
  | EXPENSE
  | INCOME
deriving DecidableEq

/-- Calendar date, the structured view of a `YYYY-MM-DD` string. -/
structure Date where
  year : ℕ
  month : ℕ
  day : ℕ
deriving DecidableEq

/-- Transaction record from `types.ts`. -/
structure Transaction where
  id : String
  title : String
  amount : ℚ
  type : TransactionType
  date : Date
  timestamp : ℤ
deriving DecidableEq

/-- `DailyStats` from `types.ts`. -/
structure DailyStats where
  daysRemaining : ℕ
  dailyAvailable : ℚ
  totalSpentThisMonth : ℚ
  totalIncomeThisMonth : ℚ
  remainingBudget : ℚ
deriving DecidableEq

/-- `ChartDataPoint` from `types.ts` (the `date` field is the day label). -/
structure ChartDataPoint where
  date : String
  income : ℚ
  expense : ℚ
deriving DecidableEq

/-- `CategoryData` from `types.ts`. -/
structure CategoryData where
  name : String
  amount : ℚ
  percentage : ℚ
deriving DecidableEq

/-- Gregorian leap-year rule, as implemented by the JS `Date` object. -/
def isLeapYear (y : ℕ) : Bool :=
  y % 4 == 0 && (y % 100 != 0 || y % 400 == 0)

/-- `new Date(year, month, 0).getDate()`: the number of days in a month. -/
def daysInMonth (y m : ℕ) : ℕ :=
  if m = 2 then (if isLeapYear y then 29 else 28)
  else if m = 4 ∨ m = 6 ∨ m = 9 ∨ m = 11 then 30
  else 31

/-- A structurally well-formed calendar date. -/
def validDate (d : Date) : Prop :=
  1 ≤ d.day ∧ d.day ≤ daysInMonth d.year d.month ∧ 1 ≤ d.month ∧ d.month ≤ 12

instance (d : Date) : Decidable (validDate d) := by
  unfold validDate; infer_instance

/-- `viewDate.getMonth() === today.getMonth() && viewDate.getFullYear() === today.getFullYear()`. -/
def isCurrentMonth (viewDate today : Date) : Bool :=
  viewDate.month == today.month && viewDate.year == today.year

/-- Strict date comparison `a < b` (the JS `Date` comparison, at day precision). -/
def dateLtB (a b : Date) : Bool :=
  a.year < b.year ||
    (a.year == b.year && (a.month < b.month || (a.month == b.month && a.day < b.day)))

/-- Month `a` strictly precedes month `b` (ignoring the day). -/
def monthLt (a b : Date) : Prop :=
  a.year < b.year ∨ (a.year = b.year ∧ a.month < b.month)

instance (a b : Date) : Decidable (monthLt a b) := by
  unfold monthLt; infer_instance

/-- `transactions.filter(t => t.date.startsWith(currentMonthStr))`:
selects the transactions of the viewed year and month. -/
def monthTransactions (txs : List Transaction) (viewDate : Date) : List Transaction :=
  txs.filter (fun t => t.date.year == viewDate.year && t.date.month == viewDate.month)

/-- `list.reduce((sum, t) => sum + t.amount, 0)`. -/
def sumAmounts (l : List Transaction) : ℚ :=
  l.foldl (fun s t => s + t.amount) 0

/-- Total of EXPENSE amounts in a transaction list. -/
def totalExpenseOf (l : List Transaction) : ℚ :=
  sumAmounts (l.filter (fun t => t.type == TransactionType.EXPENSE))

/-- Total of INCOME amounts in a transaction list. -/
def totalIncomeOf (l : List Transaction) : ℚ :=
  sumAmounts (l.filter (fun t => t.type == TransactionType.INCOME))

/-- The `stats` memo of the newer `App` (month navigation): totals over the
month subset, `remainingBudget = budget - totalSpent`, and the
current-month / other-month branch for `daysRemaining` and `dailyAvailable`. -/
def stats (ms : List Transaction) (monthlyBudget : ℚ) (viewDate today : Date) : DailyStats :=
  let totalSpent := totalExpenseOf ms
  let totalIncome := totalIncomeOf ms
  let remainingBudget := monthlyBudget - totalSpent
  let lastDayOfMonth := daysInMonth viewDate.year viewDate.month
  if isCurrentMonth viewDate today then
    let daysRemaining := max 1 (lastDayOfMonth + 1 - today.day)
    { daysRemaining := daysRemaining
      dailyAvailable := max 0 (remainingBudget / (daysRemaining : ℚ))
      totalSpentThisMonth := totalSpent
      totalIncomeThisMonth := totalIncome
      remainingBudget := remainingBudget }
  else
    { daysRemaining := 0
      dailyAvailable := 0
      totalSpentThisMonth := totalSpent
      totalIncomeThisMonth := totalIncome
      remainingBudget := remainingBudget }

/-- One accumulation step of the chart's day map: add the transaction's
amount to the income or expense bucket of its day of month. -/
def bucketStep (acc : ℕ → ℚ × ℚ) (t : Transaction) : ℕ → ℚ × ℚ :=
  fun d =>
    if d = t.date.day then
      if t.type == TransactionType.INCOME then ((acc d).1 + t.amount, (acc d).2)
      else ((acc d).1, (acc d).2 + t.amount)
    else acc d

/-- The filled day map of the chart computation. -/
def dayMap (ms : List Transaction) : ℕ → ℚ × ℚ :=
  ms.foldl bucketStep (fun _ => (0, 0))

/-- The `showUntilDay` cutoff of the newer chart computation: today's day for
the current month, `0` for a strictly future view date, the full month
otherwise. -/
def showUntilDay (viewDate today : Date) : ℕ :=
  if isCurrentMonth viewDate today then today.day
  else if dateLtB today viewDate then 0
  else daysInMonth viewDate.year viewDate.month

/-- The day numbers emitted by the chart loop: `1..daysInMonth`, kept when
at most `showUntilDay`. -/
def emittedDays (viewDate today : Date) : List ℕ :=
  (List.range' 1 (daysInMonth viewDate.year viewDate.month)).filter
    (fun i => i ≤ showUntilDay viewDate today)

/-- The `chartData` memo of the newer `App`. -/
def chartData (ms : List Transaction) (viewDate today : Date) : List ChartDataPoint :=
  (emittedDays viewDate today).map
    (fun i => { date := toString i ++ "日", income := (dayMap ms i).1, expense := (dayMap ms i).2 })

/-- Insert-or-add on a JS object viewed as an insertion-ordered association
list: an existing key keeps its place, a new key is appended. -/
def upsert : List (String × ℚ) → String → ℚ → List (String × ℚ)
  | [], k, a => [(k, a)]
  | (k', v) :: rest, k, a =>
    if k' = k then (k', v + a) :: rest else (k', v) :: upsert rest k a

/-- The `groupMap` object: expenses grouped by title, in insertion order. -/
def groupMap (expenses : List Transaction) : List (String × ℚ) :=
  expenses.foldl (fun g t => upsert g t.title t.amount) []

/-- Comparator order of the category sort: descending by amount. -/
def catGe (a b : CategoryData) : Prop := b.amount ≤ a.amount

instance : DecidableRel catGe := fun a b => inferInstanceAs (Decidable (b.amount ≤ a.amount))

instance : IsTotal CategoryData catGe :=
  ⟨fun a b => (le_total b.amount a.amount).imp id id⟩

instance : IsTrans CategoryData catGe :=
  ⟨fun _ _ _ hab hbc => le_trans hbc hab⟩

/-- The unsorted category slices: one per title group, with
`percentage = amount / totalExpense * 100`. -/
def slicesOf (expenses : List Transaction) : List CategoryData :=
  (groupMap expenses).map
    (fun p => { name := p.1, amount := p.2, percentage := p.2 / sumAmounts expenses * 100 })

/-- The `categoryStats` memo: empty when total expense is zero, otherwise the
title groups with their percentage, stably sorted descending by amount. -/
def categoryStats (ms : List Transaction) : List CategoryData :=
  let expenses := ms.filter (fun t => t.type == TransactionType.EXPENSE)
  if sumAmounts expenses = 0 then []
  else List.insertionSort catGe (slicesOf expenses)

/-- The `stats` memo of the older `App` (no month navigation; always the
current month). -/
def statsOld (ms : List Transaction) (monthlyBudget : ℚ) (today : Date) : DailyStats :=
  let totalSpent := totalExpenseOf ms
  let totalIncome := totalIncomeOf ms
  let remainingBudget := monthlyBudget - totalSpent
  let lastDayOfMonth := daysInMonth today.year today.month
  let daysRemaining := max 1 (lastDayOfMonth + 1 - today.day)
  { daysRemaining := daysRemaining
    dailyAvailable := max 0 (remainingBudget / (daysRemaining : ℚ))
    totalSpentThisMonth := totalSpent
    totalIncomeThisMonth := totalIncome
    remainingBudget := remainingBudget }

/-- The `chartData` memo of the older `App`: full current month, emitted up
to today's day. -/
def chartDataOld (ms : List Transaction) (today : Date) : List ChartDataPoint :=
  ((List.range' 1 (daysInMonth today.year today.month)).filter (fun i => i ≤ today.day)).map
    (fun i => { date := toString i ++ "日", income := (dayMap ms i).1, expense := (dayMap ms i).2 })

/-- The `categoryStats` memo of the older `App` (textually identical body to
the newer one). -/
def categoryStatsOld (ms : List Transaction) : List CategoryData :=
  let expenses := ms.filter (fun t => t.type == TransactionType.EXPENSE)
  if sumAmounts expenses = 0 then []
  else List.insertionSort catGe (slicesOf expenses)

/-- `handleAddTransaction`: rejects an empty title, an unparseable amount
(`parseFloat` NaN, modelled as `none`) and a non-positive amount, otherwise
prepends the new transaction dated today. -/
def handleAddTransaction (prev : List Transaction) (newTransTitle : String)
    (parsedAmount : Option ℚ) (newTransType : TransactionType) (today : Date)
    (freshId : String) (now : ℤ) : List Transaction :=
  if newTransTitle = "" then prev
  else
    match parsedAmount with
    | none => prev
    | some amount =>
      if amount ≤ 0 then prev
      else
        { id := freshId
          title := newTransTitle
          amount := amount
          type := newTransType
          date := today
          timestamp := now } :: prev

/-- `saveBudget`: replaces the monthly budget only when the input parses to a
strictly positive number. -/
def saveBudget (monthlyBudget : ℚ) (parsedInput : Option ℚ) : ℚ :=
  match parsedInput with
  | none => monthlyBudget
  | some val => if 0 < val then val else monthlyBudget

/-- Income accumulated by the chart's day map for one day of month. -/
def dayIncome (ms : List Transaction) (d : ℕ) : ℚ :=
  sumAmounts (ms.filter (fun t => t.type == TransactionType.INCOME && t.date.day == d))

/-- Expense accumulated by the chart's day map for one day of month. -/
def dayExpense (ms : List Transaction) (d : ℕ) : ℚ :=
  sumAmounts (ms.filter (fun t => t.type == TransactionType.EXPENSE && t.date.day == d))

/-! ### Helper lemmas about sums -/

theorem sumAmounts_foldl_acc (l : List Transaction) :
    ∀ c : ℚ, l.foldl (fun s t => s + t.amount) c = c + sumAmounts l := by
  induction l with
  | nil => intro c; simp [sumAmounts]
  | cons t l ih =>
    intro c
    simp only [sumAmounts, List.foldl_cons] at *
    rw [ih (c + t.amount), ih (0 + t.amount)]
    ring

theorem sumAmounts_nil : sumAmounts [] = 0 := rfl

theorem sumAmounts_cons (t : Transaction) (l : List Transaction) :
    sumAmounts (t :: l) = t.amount + sumAmounts l := by
  show l.foldl (fun s t => s + t.amount) (0 + t.amount) = t.amount + sumAmounts l
  rw [sumAmounts_foldl_acc]
  ring

theorem sumAmounts_eq_sum (l : List Transaction) :
    sumAmounts l = (l.map Transaction.amount).sum := by
  induction l with
  | nil => simp [sumAmounts]
  | cons t l ih => rw [sumAmounts_cons, List.map_cons, List.sum_cons, ih]

theorem sumAmounts_filter_cons (p : Transaction → Bool) (t : Transaction) (l : List Transaction) :
    sumAmounts ((t :: l).filter p) = (if p t then t.amount else 0) + sumAmounts (l.filter p) := by
  by_cases h : p t
  · rw [List.filter_cons_of_pos h, sumAmounts_cons, if_pos h]
  · rw [List.filter_cons_of_neg h, if_neg h, zero_add]

theorem sum_map_add (L : List ℕ) (f g : ℕ → ℚ) :
    (L.map (fun i => f i + g i)).sum = (L.map f).sum + (L.map g).sum := by
  induction L with
  | nil => simp
  | cons j L ih => simp only [List.map_cons, List.sum_cons, ih]; ring

theorem sum_map_ite_zero (L : List ℕ) (d : ℕ) (a : ℚ) (hd : d ∉ L) :
    (L.map (fun i => if d = i then a else 0)).sum = 0 := by
  apply List.sum_eq_zero
  intro x hx
  rcases List.mem_map.mp hx with ⟨i, hi, hix⟩
  have : d ≠ i := fun h => hd (h ▸ hi)
  simpa [this] using hix.symm

theorem sum_map_ite_single (L : List ℕ) (hL : L.Nodup) (d : ℕ) (a : ℚ) :
    (L.map (fun i => if d = i then a else 0)).sum = if d ∈ L then a else 0 := by
  induction L with
  | nil => simp
  | cons j L ih =>
    simp only [List.map_cons, List.sum_cons]
    by_cases hj : d = j
    · subst hj
      rw [if_pos rfl, sum_map_ite_zero L d a (List.nodup_cons.mp hL).1, if_pos (List.mem_cons_self d L)]
      ring
    · rw [if_neg hj, ih (List.nodup_cons.mp hL).2, zero_add]
      have h : (d ∈ j :: L) ↔ (d ∈ L) := by simp [List.mem_cons, hj]
      rw [if_congr h rfl rfl]

/-! ### The chart's day map computes per-day filtered sums -/

theorem bucketStep_fst (acc : ℕ → ℚ × ℚ) (t : Transaction) (d : ℕ) :
    (bucketStep acc t d).1 =
      (acc d).1 + (if t.type == TransactionType.INCOME && t.date.day == d then t.amount else 0) := by
  unfold bucketStep
  by_cases hd : d = t.date.day
  · by_cases hi : t.type == TransactionType.INCOME <;> simp [hd, hi]
  · have : (t.date.day == d) = false := by simp [Ne.symm hd]
    simp [hd, this]

theorem bucketStep_snd (acc : ℕ → ℚ × ℚ) (t : Transaction) (d : ℕ) :
    (bucketStep acc t d).2 =
      (acc d).2 + (if t.type == TransactionType.EXPENSE && t.date.day == d then t.amount else 0) := by
  unfold bucketStep
  by_cases hd : d = t.date.day
  · cases ht : t.type <;> simp [hd, ht]
  · have : (t.date.day == d) = false := by simp [Ne.symm hd]
    simp [hd, this]

theorem dayIncome_cons (t : Transaction) (ms : List Transaction) (d : ℕ) :
    dayIncome (t :: ms) d =
      (if t.type == TransactionType.INCOME && t.date.day == d then t.amount else 0) +
        dayIncome ms d := by
  unfold dayIncome
  exact sumAmounts_filter_cons _ t ms

theorem dayExpense_cons (t : Transaction) (ms : List Transaction) (d : ℕ) :
    dayExpense (t :: ms) d =
      (if t.type == TransactionType.EXPENSE && t.date.day == d then t.amount else 0) +
        dayExpense ms d := by
  unfold dayExpense
  exact sumAmounts_filter_cons _ t ms

theorem foldl_bucketStep_fst (ms : List Transaction) :
    ∀ (acc : ℕ → ℚ × ℚ) (d : ℕ),
      ((ms.foldl bucketStep acc) d).1 = (acc d).1 + dayIncome ms d := by
  induction ms with
  | nil => intro acc d; simp [dayIncome, sumAmounts]
  | cons t ms ih =>
    intro acc d
    simp only [List.foldl_cons]
    rw [ih (bucketStep acc t) d, bucketStep_fst, dayIncome_cons]
    ring

theorem foldl_bucketStep_snd (ms : List Transaction) :
    ∀ (acc : ℕ → ℚ × ℚ) (d : ℕ),
      ((ms.foldl bucketStep acc) d).2 = (acc d).2 + dayExpense ms d := by
  induction ms with
  | nil => intro acc d; simp [dayExpense, sumAmounts]
  | cons t ms ih =>
    intro acc d
    simp only [List.foldl_cons]
    rw [ih (bucketStep acc t) d, bucketStep_snd, dayExpense_cons]
    ring

theorem dayMap_fst (ms : List Transaction) (d : ℕ) : (dayMap ms d).1 = dayIncome ms d := by
  unfold dayMap
  rw [foldl_bucketStep_fst]
  norm_num

theorem dayMap_snd (ms : List Transaction) (d : ℕ) : (dayMap ms d).2 = dayExpense ms d := by
  unfold dayMap
  rw [foldl_bucketStep_snd]
  norm_num

/-! ### Exchanging a sum over emitted days with a sum over transactions -/

theorem sum_dayIncome_eq (L : List ℕ) (hL : L.Nodup) :
    ∀ ms : List Transaction,
      (L.map (fun i => dayIncome ms i)).sum =
        sumAmounts (ms.filter (fun t => t.type == TransactionType.INCOME && L.contains t.date.day)) := by
  intro ms
  induction ms with
  | nil =>
    simp only [List.filter_nil, sumAmounts_nil]
    apply List.sum_eq_zero
    intro x hx
    rcases List.mem_map.mp hx with ⟨i, _, hix⟩
    simpa [dayIncome, sumAmounts] using hix.symm
  | cons t ms ih =>
    have hmap : L.map (fun i => dayIncome (t :: ms) i) =
        L.map (fun i =>
          (if t.type == TransactionType.INCOME && t.date.day == i then t.amount else 0) +
            dayIncome ms i) := by
      apply List.map_congr_left
      intro i _
      exact dayIncome_cons t ms i
    rw [hmap, sum_map_add, ih, sumAmounts_filter_cons]
    congr 1
    by_cases hi : t.type == TransactionType.INCOME
    · have h2 : (L.map (fun i =>
          if t.type == TransactionType.INCOME && t.date.day == i then t.amount else 0)) =
          L.map (fun i => if t.date.day = i then t.amount else 0) := by
        apply List.map_congr_left
        intro i _
        simp [hi]
      rw [h2, sum_map_ite_single L hL]
      by_cases hm : t.date.day ∈ L <;> simp [hi, hm]
    · have h2 : (L.map (fun i =>
          if t.type == TransactionType.INCOME && t.date.day == i then t.amount else 0)) =
          L.map (fun _ => (0 : ℚ)) := by
        apply List.map_congr_left
        intro i _
        simp [hi]
      rw [h2]
      simp [hi]

theorem sum_dayExpense_eq (L : List ℕ) (hL : L.Nodup) :
    ∀ ms : List Transaction,
      (L.map (fun i => dayExpense ms i)).sum =
        sumAmounts (ms.filter (fun t => t.type == TransactionType.EXPENSE && L.contains t.date.day)) := by
  intro ms
  induction ms with
  | nil =>
    simp only [List.filter_nil, sumAmounts_nil]
    apply List.sum_eq_zero
    intro x hx
    rcases List.mem_map.mp hx with ⟨i, _, hix⟩
    simpa [dayExpense, sumAmounts] using hix.symm
  | cons t ms ih =>
    have hmap : L.map (fun i => dayExpense (t :: ms) i) =
        L.map (fun i =>
          (if t.type == TransactionType.EXPENSE && t.date.day == i then t.amount else 0) +
            dayExpense ms i) := by
      apply List.map_congr_left
      intro i _
      exact dayExpense_cons t ms i
    rw [hmap, sum_map_add, ih, sumAmounts_filter_cons]
    congr 1
    by_cases hi : t.type == TransactionType.EXPENSE
    · have h2 : (L.map (fun i =>
          if t.type == TransactionType.EXPENSE && t.date.day == i then t.amount else 0)) =
          L.map (fun i => if t.date.day = i then t.amount else 0) := by
        apply List.map_congr_left
        intro i _
        simp [hi]
      rw [h2, sum_map_ite_single L hL]
      by_cases hm : t.date.day ∈ L <;> simp [hi, hm]
    · have h2 : (L.map (fun i =>
          if t.type == TransactionType.EXPENSE && t.date.day == i then t.amount else 0)) =
          L.map (fun _ => (0 : ℚ)) := by
        apply List.map_congr_left
        intro i _
        simp [hi]
      rw [h2]
      simp [hi]

/-! ### The emitted-day list -/

theorem range'_filter_le (n k : ℕ) :
    (List.range' 1 n).filter (fun i => i ≤ k) = List.range' 1 (min n k) := by
  induction n with
  | zero => simp
  | succ n ih =>
    rw [List.range'_concat, List.filter_append, ih]
    by_cases h : 1 + n ≤ k
    · have h1 : min (n + 1) k = n + 1 := by omega
      have h2 : min n k = n := by omega
      rw [h1, h2, List.range'_concat]
      simp [h]
    · have h1 : min (n + 1) k = min n k := by omega
      rw [h1]
      simp [h]

theorem nodup_emittedDays (viewDate today : Date) : (emittedDays viewDate today).Nodup := by
  apply List.Nodup.filter
  simp [List.nodup_range']

theorem emittedDays_eq (viewDate today : Date) :
    emittedDays viewDate today =
      List.range' 1 (min (daysInMonth viewDate.year viewDate.month) (showUntilDay viewDate today)) := by
  unfold emittedDays
  exact range'_filter_le _ _

theorem mem_emittedDays (viewDate today : Date) (d : ℕ) :
    d ∈ emittedDays viewDate today ↔
      1 ≤ d ∧ d ≤ daysInMonth viewDate.year viewDate.month ∧ d ≤ showUntilDay viewDate today := by
  rw [emittedDays_eq]
  rw [List.mem_range'_1]
  omega

/-! ### Month-order facts -/

theorem isCurrentMonth_of_same (viewDate today : Date)
    (hy : viewDate.year = today.year) (hm : viewDate.month = today.month) :
    isCurrentMonth viewDate today = true := by
  simp [isCurrentMonth, hy, hm]

theorem not_current_of_monthLt_future (viewDate today : Date) (h : monthLt today viewDate) :
    isCurrentMonth viewDate today = false ∧ dateLtB today viewDate = true := by
  unfold monthLt at h
  unfold isCurrentMonth dateLtB
  constructor
  · simp only [Bool.and_eq_false_iff, beq_eq_false_iff_ne, ne_eq]
    omega
  · simp only [Bool.or_eq_true, decide_eq_true_eq, Bool.and_eq_true, beq_iff_eq]
    omega

theorem not_current_of_monthLt_past (viewDate today : Date) (h : monthLt viewDate today) :
    isCurrentMonth viewDate today = false ∧ dateLtB today viewDate = false := by
  unfold monthLt at h
  unfold isCurrentMonth dateLtB
  constructor
  · simp only [Bool.and_eq_false_iff, beq_eq_false_iff_ne, ne_eq]
    omega
  · simp only [Bool.or_eq_false_iff, decide_eq_false_iff_not, Bool.and_eq_false_iff,
      beq_eq_false_iff_ne, ne_eq, not_lt]
    omega

theorem mem_monthTransactions (txs : List Transaction) (viewDate : Date) (t : Transaction)
    (h : t ∈ monthTransactions txs viewDate) :
    t ∈ txs ∧ t.date.year = viewDate.year ∧ t.date.month = viewDate.month := by
  simp [monthTransactions, List.mem_filter] at h
  exact ⟨h.1, h.2⟩

/-! ### Group map lemmas -/

/-- The keys of an association list. -/
def keysOf (g : List (String × ℚ)) : List String := g.map Prod.fst

/-- Value lookup in the grouping object, `0` for an absent key. -/
def lookupQ (g : List (String × ℚ)) (k : String) : ℚ :=
  match g.find? (fun p => p.1 == k) with
  | some p => p.2
  | none => 0

theorem lookupQ_nil (k : String) : lookupQ [] k = 0 := rfl

theorem lookupQ_cons (k' : String) (v : ℚ) (g : List (String × ℚ)) (k : String) :
    lookupQ ((k', v) :: g) k = if k' = k then v else lookupQ g k := by
  by_cases h : k' = k
  · simp only [lookupQ]
    rw [List.find?_cons_of_pos _ (by simp [h]), if_pos h]
  · simp only [lookupQ]
    rw [List.find?_cons_of_neg _ (by simp [h]), if_neg h]

theorem lookupQ_upsert (g : List (String × ℚ)) (k : String) (a : ℚ) (k' : String) :
    lookupQ (upsert g k a) k' = lookupQ g k' + (if k = k' then a else 0) := by
  induction g with
  | nil =>
    by_cases h : k = k' <;> simp [upsert, lookupQ_cons, lookupQ_nil, h]
  | cons p g ih =>
    obtain ⟨k₀, v⟩ := p
    by_cases h0 : k₀ = k
    · subst h0
      rw [show upsert ((k₀, v) :: g) k₀ a = (k₀, v + a) :: g from by simp [upsert]]
      by_cases h1 : k₀ = k'
      · subst h1; simp [lookupQ_cons]
      · simp [lookupQ_cons, h1]
    · rw [show upsert ((k₀, v) :: g) k a = (k₀, v) :: upsert g k a from by simp [upsert, h0]]
      by_cases h1 : k₀ = k'
      · subst h1
        have hk : k ≠ k₀ := fun h => h0 h.symm
        simp [lookupQ_cons, hk]
      · simp [lookupQ_cons, h1, ih]

theorem lookupQ_foldl_upsert (l : List Transaction) :
    ∀ (g : List (String × ℚ)) (k : String),
      lookupQ (l.foldl (fun g t => upsert g t.title t.amount) g) k =
        lookupQ g k + sumAmounts (l.filter (fun t => t.title == k)) := by
  induction l with
  | nil => intro g k; simp [sumAmounts]
  | cons t l ih =>
    intro g k
    simp only [List.foldl_cons]
    rw [ih (upsert g t.title t.amount) k, lookupQ_upsert, sumAmounts_filter_cons]
    by_cases h : t.title = k
    · simp [h]
      ring
    · simp [h]

theorem lookupQ_groupMap (l : List Transaction) (k : String) :
    lookupQ (groupMap l) k = sumAmounts (l.filter (fun t => t.title == k)) := by
  unfold groupMap
  rw [lookupQ_foldl_upsert]
  simp [lookupQ]

theorem mem_keysOf_upsert (g : List (String × ℚ)) (k : String) (a : ℚ) (x : String)
    (hx : x ∈ keysOf (upsert g k a)) : x ∈ keysOf g ∨ x = k := by
  induction g with
  | nil => simpa [upsert, keysOf] using hx
  | cons p g ih =>
    obtain ⟨k₀, v⟩ := p
    by_cases h0 : k₀ = k
    · subst h0
      rw [show upsert ((k₀, v) :: g) k₀ a = (k₀, v + a) :: g from by simp [upsert]] at hx
      simpa [keysOf] using Or.inl (by simpa [keysOf] using hx)
    · rw [show upsert ((k₀, v) :: g) k a = (k₀, v) :: upsert g k a from by simp [upsert, h0]] at hx
      simp only [keysOf, List.map_cons, List.mem_cons] at hx ⊢
      rcases hx with h | h
      · exact Or.inl (Or.inl h)
      · rcases ih h with h' | h'
        · exact Or.inl (Or.inr h')
        · exact Or.inr h'

theorem nodup_keysOf_upsert (g : List (String × ℚ)) (k : String) (a : ℚ)
    (hg : (keysOf g).Nodup) : (keysOf (upsert g k a)).Nodup := by
  induction g with
  | nil => simp [upsert, keysOf]
  | cons p g ih =>
    obtain ⟨k₀, v⟩ := p
    by_cases h0 : k₀ = k
    · subst h0
      rw [show upsert ((k₀, v) :: g) k₀ a = (k₀, v + a) :: g from by simp [upsert]]
      simpa [keysOf] using hg
    · rw [show upsert ((k₀, v) :: g) k a = (k₀, v) :: upsert g k a from by simp [upsert, h0]]
      simp only [keysOf, List.map_cons, List.nodup_cons] at hg ⊢
      refine ⟨fun hmem => ?_, ih hg.2⟩
      rcases mem_keysOf_upsert g k a k₀ hmem with h | h
      · exact hg.1 h
      · exact h0 h

theorem nodup_keysOf_groupMap (l : List Transaction) : (keysOf (groupMap l)).Nodup := by
  unfold groupMap
  suffices h : ∀ g : List (String × ℚ), (keysOf g).Nodup →
      (keysOf (l.foldl (fun g t => upsert g t.title t.amount) g)).Nodup by
    exact h [] (by simp [keysOf])
  induction l with
  | nil => intro g hg; simpa using hg
  | cons t l ih =>
    intro g hg
    simp only [List.foldl_cons]
    exact ih _ (nodup_keysOf_upsert g t.title t.amount hg)

theorem snd_eq_lookupQ_of_mem (g : List (String × ℚ)) (hg : (keysOf g).Nodup)
    (p : String × ℚ) (hp : p ∈ g) : p.2 = lookupQ g p.1 := by
  induction g with
  | nil => cases hp
  | cons q g ih =>
    obtain ⟨k₀, v⟩ := q
    simp only [keysOf, List.map_cons, List.nodup_cons] at hg
    rcases List.mem_cons.mp hp with h | h
    · subst h; simp [lookupQ_cons]
    · have hne : k₀ ≠ p.1 := by
        intro hk
        exact hg.1 (hk ▸ (List.mem_map.mpr ⟨p, h, rfl⟩))
      rw [lookupQ_cons, if_neg hne]
      exact ih hg.2 h

theorem snd_sum_upsert (g : List (String × ℚ)) (k : String) (a : ℚ) :
    ((upsert g k a).map Prod.snd).sum = (g.map Prod.snd).sum + a := by
  induction g with
  | nil => simp [upsert]
  | cons p g ih =>
    obtain ⟨k₀, v⟩ := p
    by_cases h0 : k₀ = k
    · subst h0
      rw [show upsert ((k₀, v) :: g) k₀ a = (k₀, v + a) :: g from by simp [upsert]]
      simp
      ring
    · rw [show upsert ((k₀, v) :: g) k a = (k₀, v) :: upsert g k a from by simp [upsert, h0]]
      simp [ih]
      ring

theorem snd_sum_groupMap (l : List Transaction) :
    ((groupMap l).map Prod.snd).sum = sumAmounts l := by
  unfold groupMap
  suffices h : ∀ g : List (String × ℚ),
      ((l.foldl (fun g t => upsert g t.title t.amount) g).map Prod.snd).sum =
        (g.map Prod.snd).sum + sumAmounts l by
    simpa using h []
  induction l with
  | nil => intro g; simp [sumAmounts]
  | cons t l ih =>
    intro g
    simp only [List.foldl_cons]
    rw [ih (upsert g t.title t.amount), snd_sum_upsert, sumAmounts_cons]
    ring

theorem sum_map_div_mul (g : List (String × ℚ)) (T : ℚ) :
    (g.map (fun p => p.2 / T * 100)).sum = (g.map Prod.snd).sum / T * 100 := by
  induction g with
  | nil => simp
  | cons p g ih =>
    simp only [List.map_cons, List.sum_cons, ih]
    rw [add_div, add_mul]

/-! ### Field lemmas for `stats` -/

theorem stats_totalSpent (ms : List Transaction) (b : ℚ) (v t : Date) :
    (stats ms b v t).totalSpentThisMonth = totalExpenseOf ms := by
  unfold stats
  split <;> rfl

theorem stats_totalIncome (ms : List Transaction) (b : ℚ) (v t : Date) :
    (stats ms b v t).totalIncomeThisMonth = totalIncomeOf ms := by
  unfold stats
  split <;> rfl

theorem stats_remainingBudget (ms : List Transaction) (b : ℚ) (v t : Date) :
    (stats ms b v t).remainingBudget = b - totalExpenseOf ms := by
  unfold stats
  split <;> rfl

/-! ### Chart sums over the emitted days -/

theorem chart_income_sum (ms : List Transaction) (viewDate today : Date) :
    ((chartData ms viewDate today).map ChartDataPoint.income).sum =
      sumAmounts (ms.filter
        (fun t => t.type == TransactionType.INCOME && (emittedDays viewDate today).contains t.date.day)) := by
  unfold chartData
  rw [List.map_map]
  have h : (ChartDataPoint.income ∘ fun i =>
      ({ date := toString i ++ "日", income := (dayMap ms i).1,
         expense := (dayMap ms i).2 } : ChartDataPoint)) = fun i => dayIncome ms i := by
    funext i
    simp [Function.comp, dayMap_fst]
  rw [h]
  exact sum_dayIncome_eq (emittedDays viewDate today) (nodup_emittedDays viewDate today) ms

theorem chart_expense_sum (ms : List Transaction) (viewDate today : Date) :
    ((chartData ms viewDate today).map ChartDataPoint.expense).sum =
      sumAmounts (ms.filter
        (fun t => t.type == TransactionType.EXPENSE && (emittedDays viewDate today).contains t.date.day)) := by
  unfold chartData
  rw [List.map_map]
  have h : (ChartDataPoint.expense ∘ fun i =>
      ({ date := toString i ++ "日", income := (dayMap ms i).1,
         expense := (dayMap ms i).2 } : ChartDataPoint)) = fun i => dayExpense ms i := by
    funext i
    simp [Function.comp, dayMap_snd]
  rw [h]
  exact sum_dayExpense_eq (emittedDays viewDate today) (nodup_emittedDays viewDate today) ms

theorem showUntilDay_current (viewDate today : Date) (h : isCurrentMonth viewDate today = true) :
    showUntilDay viewDate today = today.day := by
  simp [showUntilDay, h]

theorem showUntilDay_future (viewDate today : Date) (h : monthLt today viewDate) :
    showUntilDay viewDate today = 0 := by
  obtain ⟨h1, h2⟩ := not_current_of_monthLt_future viewDate today h
  simp [showUntilDay, h1, h2]

theorem showUntilDay_past (viewDate today : Date) (h : monthLt viewDate today) :
    showUntilDay viewDate today = daysInMonth viewDate.year viewDate.month := by
  obtain ⟨h1, h2⟩ := not_current_of_monthLt_past viewDate today h
  simp [showUntilDay, h1, h2]

/-! ### Concrete example data for witnesses and counterexamples -/

/-- An income of 10 on 2024-01-05. -/
def salaryJan5 : Transaction :=
  { id := "s1", title := "Salary", amount := 10, type := .INCOME, date := ⟨2024, 1, 5⟩, timestamp := 0 }

/-- An expense of 30 titled Coffee on 2024-01-03. -/
def coffee1 : Transaction :=
  { id := "c1", title := "Coffee", amount := 30, type := .EXPENSE, date := ⟨2024, 1, 3⟩, timestamp := 1 }

/-- An expense of 20 titled Coffee on 2024-01-04. -/
def coffee2 : Transaction :=
  { id := "c2", title := "Coffee", amount := 20, type := .EXPENSE, date := ⟨2024, 1, 4⟩, timestamp := 2 }

/-- An expense of 10 titled Tea on 2024-01-05. -/
def tea1 : Transaction :=
  { id := "t1", title := "Tea", amount := 10, type := .EXPENSE, date := ⟨2024, 1, 5⟩, timestamp := 3 }

/-- An expense of 10 titled A on 2024-01-02 (tie-order example). -/
def expA : Transaction :=
  { id := "a1", title := "A", amount := 10, type := .EXPENSE, date := ⟨2024, 1, 2⟩, timestamp := 4 }

/-- An expense of 10 titled B on 2024-01-06 (tie-order example). -/
def expB : Transaction :=
  { id := "b1", title := "B", amount := 10, type := .EXPENSE, date := ⟨2024, 1, 6⟩, timestamp := 5 }

/-! ### Claim theorems -/

/-- C2 counterexample: for the empty transaction list with budget 5000,
viewing the current month 2024-01 on day 10, the derived stats are not
all zero and the chart series is not empty — contradicting the claim
that an empty transaction list yields all-zero stats and an empty chart. -/
theorem empty_list_counterexample :
    ¬ ((stats [] 5000 ⟨2024, 1, 10⟩ ⟨2024, 1, 10⟩).remainingBudget = 0
       ∧ (stats [] 5000 ⟨2024, 1, 10⟩ ⟨2024, 1, 10⟩).daysRemaining = 0
       ∧ (stats [] 5000 ⟨2024, 1, 10⟩ ⟨2024, 1, 10⟩).dailyAvailable = 0
       ∧ chartData [] ⟨2024, 1, 10⟩ ⟨2024, 1, 10⟩ = []) := by
  intro h
  have h1 := h.1
  norm_num [stats, totalExpenseOf, totalIncomeOf, sumAmounts, isCurrentMonth] at h1

/-- C2 (amended): for an empty transaction list and any budget, the month
filter, totals and category list are empty/zero, `remainingBudget` equals the
budget, the chart series consists of the emitted days with zero income and
expense, and `daysRemaining`/`dailyAvailable` follow the usual current-month
and other-month rules. -/
theorem empty_list_behavior (budget : ℚ) (viewDate today : Date) :
    monthTransactions [] viewDate = []
    ∧ stats [] budget viewDate today =
        { daysRemaining :=
            if isCurrentMonth viewDate today then
              max 1 (daysInMonth viewDate.year viewDate.month + 1 - today.day)
            else 0
          dailyAvailable :=
            if isCurrentMonth viewDate today then
              max 0 (budget /
                ((max 1 (daysInMonth viewDate.year viewDate.month + 1 - today.day) : ℕ) : ℚ))
            else 0
          totalSpentThisMonth := 0
          totalIncomeThisMonth := 0
          remainingBudget := budget }
    ∧ chartData [] viewDate today =
        (emittedDays viewDate today).map
          (fun i => { date := toString i ++ "日", income := 0, expense := 0 })
    ∧ categoryStats [] = [] := by
  refine ⟨rfl, ?_, ?_, ?_⟩
  · unfold stats totalExpenseOf totalIncomeOf
    simp only [List.filter_nil, sumAmounts_nil, sub_zero]
    split <;> simp_all
  · unfold chartData
    apply List.map_congr_left
    intro i _
    have h1 : dayMap [] i = (0, 0) := rfl
    rw [h1]
  · rfl

/-- C3: the derived stats equal `budget - totalExpense` for the remaining
budget (with the totals being the sums of EXPENSE/INCOME amounts of the
subset), and in the current-month case `daysRemaining` is
`max 1 (lastDayOfMonth - today.day + 1)` with
`dailyAvailable = max 0 (remainingBudget / daysRemaining)`, while any other
month yields `daysRemaining = 0` and `dailyAvailable = 0`. -/
theorem stats_formula (ms : List Transaction) (budget : ℚ) (viewDate today : Date) :
    (stats ms budget viewDate today).totalSpentThisMonth =
        ((ms.filter (fun t => t.type == TransactionType.EXPENSE)).map Transaction.amount).sum
    ∧ (stats ms budget viewDate today).totalIncomeThisMonth =
        ((ms.filter (fun t => t.type == TransactionType.INCOME)).map Transaction.amount).sum
    ∧ (stats ms budget viewDate today).remainingBudget =
        budget - (stats ms budget viewDate today).totalSpentThisMonth
    ∧ (isCurrentMonth viewDate today = true →
        ((stats ms budget viewDate today).daysRemaining : ℤ) =
            max 1 ((daysInMonth viewDate.year viewDate.month : ℤ) - (today.day : ℤ) + 1)
        ∧ (stats ms budget viewDate today).dailyAvailable =
            max 0 ((stats ms budget viewDate today).remainingBudget /
              ((stats ms budget viewDate today).daysRemaining : ℚ)))
    ∧ (isCurrentMonth viewDate today = false →
        (stats ms budget viewDate today).daysRemaining = 0
        ∧ (stats ms budget viewDate today).dailyAvailable = 0) := by
  refine ⟨?_, ?_, ?_, ?_, ?_⟩
  · rw [stats_totalSpent, totalExpenseOf, sumAmounts_eq_sum]
  · rw [stats_totalIncome, totalIncomeOf, sumAmounts_eq_sum]
  · rw [stats_remainingBudget, stats_totalSpent]
  · intro h
    constructor
    · simp only [stats, h, if_true]
      omega
    · simp [stats, h]
  · intro h
    simp [stats, h]

/-- C3 witness: the formulas at a concrete current-month input and a concrete
other-month input. -/
theorem stats_formula_witness :
    ((stats [salaryJan5] 1000 ⟨2024, 1, 10⟩ ⟨2024, 1, 10⟩).daysRemaining : ℤ) =
        max 1 ((daysInMonth 2024 1 : ℤ) - 10 + 1)
    ∧ (stats [salaryJan5] 1000 ⟨2024, 2, 1⟩ ⟨2024, 1, 10⟩).daysRemaining = 0 := by
  constructor
  · exact ((stats_formula [salaryJan5] 1000 ⟨2024, 1, 10⟩ ⟨2024, 1, 10⟩).2.2.2.1 (by decide)).1
  · exact ((stats_formula [salaryJan5] 1000 ⟨2024, 2, 1⟩ ⟨2024, 1, 10⟩).2.2.2.2 (by decide)).1

/-- C7: the aggregation never divides by zero: in the current-month branch
the `daysRemaining` divisor is at least 1, and percentages are only computed
when total expense is non-zero (a zero total yields the empty category list,
and a non-empty category list forces a non-zero total). -/
theorem aggregates_no_div_zero (ms : List Transaction) (budget : ℚ) (viewDate today : Date) :
    (isCurrentMonth viewDate today = true →
        1 ≤ (stats ms budget viewDate today).daysRemaining)
    ∧ (totalExpenseOf ms = 0 → categoryStats ms = [])
    ∧ (categoryStats ms ≠ [] → totalExpenseOf ms ≠ 0) := by
  have h2 : totalExpenseOf ms = 0 → categoryStats ms = [] := by
    intro h
    unfold totalExpenseOf at h
    simp [categoryStats, h]
  refine ⟨?_, h2, fun hne h0 => hne (h2 h0)⟩
  intro h
  simp [stats, h]

/-- C7 witness: concrete instances of each guard. -/
theorem aggregates_no_div_zero_witness :
    1 ≤ (stats [] 100 ⟨2024, 1, 10⟩ ⟨2024, 1, 10⟩).daysRemaining
    ∧ categoryStats [salaryJan5] = []
    ∧ totalExpenseOf [coffee1] ≠ 0 := by
  refine ⟨(aggregates_no_div_zero [] 100 ⟨2024, 1, 10⟩ ⟨2024, 1, 10⟩).1 (by decide),
    (aggregates_no_div_zero [salaryJan5] 100 ⟨2024, 1, 10⟩ ⟨2024, 1, 10⟩).2.1
      (by simp [totalExpenseOf, sumAmounts, salaryJan5]),
    (aggregates_no_div_zero [coffee1] 100 ⟨2024, 1, 10⟩ ⟨2024, 1, 10⟩).2.2 ?_⟩
  norm_num [categoryStats, slicesOf, groupMap, upsert, sumAmounts, catGe, List.insertionSort,
    List.orderedInsert, coffee1]

/-- C9: adding a transaction is validated and atomic: an empty title, an
unparseable amount, or a non-positive amount leaves the list unchanged;
otherwise exactly the new transaction dated today with the parsed amount and
chosen type is prepended, preserving all existing transactions. -/
theorem handleAddTransaction_spec (prev : List Transaction) (title : String)
    (parsed : Option ℚ) (ty : TransactionType) (today : Date) (freshId : String) (now : ℤ) :
    ((title = "" ∨ parsed = none ∨ ∃ a, parsed = some a ∧ a ≤ 0) →
        handleAddTransaction prev title parsed ty today freshId now = prev)
    ∧ (∀ a, parsed = some a → 0 < a → title ≠ "" →
        handleAddTransaction prev title parsed ty today freshId now =
          { id := freshId, title := title, amount := a, type := ty, date := today,
            timestamp := now } :: prev) := by
  constructor
  · rintro (h | h | ⟨a, ha, hle⟩)
    · simp [handleAddTransaction, h]
    · subst h
      by_cases ht : title = "" <;> simp [handleAddTransaction, ht]
    · subst ha
      by_cases ht : title = "" <;> simp [handleAddTransaction, ht, hle]
  · intro a ha hpos hne
    subst ha
    simp [handleAddTransaction, hne, not_le.mpr hpos]

/-- C9 witness: each rejection branch and the success branch at concrete
inputs. -/
theorem handleAddTransaction_witness :
    handleAddTransaction [coffee1] "" (some 5) .EXPENSE ⟨2024, 1, 10⟩ "id1" 9 = [coffee1]
    ∧ handleAddTransaction [coffee1] "Lunch" none .EXPENSE ⟨2024, 1, 10⟩ "id1" 9 = [coffee1]
    ∧ handleAddTransaction [coffee1] "Lunch" (some 0) .EXPENSE ⟨2024, 1, 10⟩ "id1" 9 = [coffee1]
    ∧ handleAddTransaction [coffee1] "Lunch" (some 12) .EXPENSE ⟨2024, 1, 10⟩ "id1" 9 =
        { id := "id1", title := "Lunch", amount := 12, type := .EXPENSE,
          date := ⟨2024, 1, 10⟩, timestamp := 9 } :: [coffee1] := by
  refine ⟨(handleAddTransaction_spec [coffee1] "" (some 5) .EXPENSE ⟨2024, 1, 10⟩ "id1" 9).1
      (Or.inl rfl),
    (handleAddTransaction_spec [coffee1] "Lunch" none .EXPENSE ⟨2024, 1, 10⟩ "id1" 9).1
      (Or.inr (Or.inl rfl)),
    (handleAddTransaction_spec [coffee1] "Lunch" (some 0) .EXPENSE ⟨2024, 1, 10⟩ "id1" 9).1
      (Or.inr (Or.inr ⟨0, rfl, le_refl 0⟩)),
    (handleAddTransaction_spec [coffee1] "Lunch" (some 12) .EXPENSE ⟨2024, 1, 10⟩ "id1" 9).2
      12 rfl (by norm_num) (by decide)⟩

/-- C10: saving the budget replaces it only when the input parses to a
strictly positive number, leaves it unchanged otherwise, and therefore
preserves strict positivity of the stored budget. -/
theorem saveBudget_spec (b : ℚ) (input : Option ℚ) :
    (∀ v, input = some v → 0 < v → saveBudget b input = v)
    ∧ ((input = none ∨ ∃ v, input = some v ∧ ¬ 0 < v) → saveBudget b input = b)
    ∧ (0 < b → 0 < saveBudget b input) := by
  refine ⟨?_, ?_, ?_⟩
  · intro v hv hpos
    subst hv
    simp [saveBudget, hpos]
  · rintro (h | ⟨v, hv, hnpos⟩)
    · subst h; rfl
    · subst hv
      simp [saveBudget, hnpos]
  · intro hb
    cases input with
    | none => exact hb
    | some v =>
      by_cases h : 0 < v
      · simp [saveBudget, h]
      · simpa [saveBudget, h] using hb

/-- C1 counterexample: viewing the current month 2024-01 on day 1 with a
single income dated 2024-01-05, the chart series is truncated at day 1 and
its income sum is 0, while totalIncome in the derived stats is 10 — the
claimed equality fails. -/
theorem chart_sum_counterexample :
    ¬ (((chartData (monthTransactions [salaryJan5] ⟨2024, 1, 1⟩) ⟨2024, 1, 1⟩ ⟨2024, 1, 1⟩).map
          ChartDataPoint.income).sum =
        (stats (monthTransactions [salaryJan5] ⟨2024, 1, 1⟩) 1000 ⟨2024, 1, 1⟩
          ⟨2024, 1, 1⟩).totalIncomeThisMonth) := by
  rw [stats_totalIncome]
  norm_num [chartData, monthTransactions, emittedDays, showUntilDay, isCurrentMonth, dateLtB,
    daysInMonth, isLeapYear, dayMap, bucketStep, salaryJan5, List.range', sumAmounts,
    totalIncomeOf]

/-- C1 (amended): the chart point sums equal totalIncome/totalExpense
restricted to the emitted days; in particular, for a past viewed month with
well-formed dates (where every day of the month is emitted) they equal
totalIncome and totalExpense of the derived stats exactly. -/
theorem chart_sums_restricted (txs : List Transaction) (budget : ℚ) (viewDate today : Date) :
    ((chartData (monthTransactions txs viewDate) viewDate today).map ChartDataPoint.income).sum =
        sumAmounts ((monthTransactions txs viewDate).filter
          (fun t => t.type == TransactionType.INCOME &&
            (emittedDays viewDate today).contains t.date.day))
    ∧ ((chartData (monthTransactions txs viewDate) viewDate today).map ChartDataPoint.expense).sum =
        sumAmounts ((monthTransactions txs viewDate).filter
          (fun t => t.type == TransactionType.EXPENSE &&
            (emittedDays viewDate today).contains t.date.day))
    ∧ (monthLt viewDate today →
        (∀ t ∈ monthTransactions txs viewDate, validDate t.date) →
        ((chartData (monthTransactions txs viewDate) viewDate today).map
            ChartDataPoint.income).sum =
          (stats (monthTransactions txs viewDate) budget viewDate today).totalIncomeThisMonth
        ∧ ((chartData (monthTransactions txs viewDate) viewDate today).map
            ChartDataPoint.expense).sum =
          (stats (monthTransactions txs viewDate) budget viewDate today).totalSpentThisMonth) := by
  refine ⟨chart_income_sum _ _ _, chart_expense_sum _ _ _, ?_⟩
  intro hpast hval
  have hcontains : ∀ t ∈ monthTransactions txs viewDate,
      (emittedDays viewDate today).contains t.date.day = true := by
    intro t ht
    obtain ⟨_, hy, hm⟩ := mem_monthTransactions txs viewDate t ht
    obtain ⟨hd1, hd2, _, _⟩ := hval t ht
    have hcut := showUntilDay_past viewDate today hpast
    rw [hy, hm] at hd2
    have hmemd : t.date.day ∈ emittedDays viewDate today := by
      rw [mem_emittedDays]
      exact ⟨hd1, hd2, by rw [hcut]; exact hd2⟩
    simpa using hmemd
  constructor
  · rw [chart_income_sum, stats_totalIncome, totalIncomeOf]
    congr 1
    apply List.filter_congr
    intro t ht
    rw [hcontains t ht, Bool.and_true]
  · rw [chart_expense_sum, stats_totalSpent, totalExpenseOf]
    congr 1
    apply List.filter_congr
    intro t ht
    rw [hcontains t ht, Bool.and_true]

/-- C1 witness: the full-month equality at a concrete past-month input. -/
theorem chart_sums_restricted_witness :
    ((chartData (monthTransactions [salaryJan5, coffee1] ⟨2024, 1, 1⟩) ⟨2024, 1, 1⟩
          ⟨2024, 2, 3⟩).map ChartDataPoint.income).sum =
        (stats (monthTransactions [salaryJan5, coffee1] ⟨2024, 1, 1⟩) 1000 ⟨2024, 1, 1⟩
          ⟨2024, 2, 3⟩).totalIncomeThisMonth
    ∧ ((chartData (monthTransactions [salaryJan5, coffee1] ⟨2024, 1, 1⟩) ⟨2024, 1, 1⟩
          ⟨2024, 2, 3⟩).map ChartDataPoint.expense).sum =
        (stats (monthTransactions [salaryJan5, coffee1] ⟨2024, 1, 1⟩) 1000 ⟨2024, 1, 1⟩
          ⟨2024, 2, 3⟩).totalSpentThisMonth :=
  (chart_sums_restricted [salaryJan5, coffee1] 1000 ⟨2024, 1, 1⟩ ⟨2024, 2, 3⟩).2.2
    (by decide) (by decide)

/-- C4: the chart accumulates each transaction's amount into its day's
income/expense bucket (each emitted point carries the per-day filtered sums),
and is truncated to days `1..today.day` for the current month, to the empty
series for a strictly future month, and to all calendar days for a past
month. -/
theorem chartData_truncation (ms : List Transaction) (viewDate today : Date) :
    chartData ms viewDate today =
        (emittedDays viewDate today).map
          (fun i => { date := toString i ++ "日", income := dayIncome ms i,
                      expense := dayExpense ms i })
    ∧ (isCurrentMonth viewDate today = true →
        today.day ≤ daysInMonth viewDate.year viewDate.month →
        emittedDays viewDate today = List.range' 1 today.day)
    ∧ (monthLt today viewDate → chartData ms viewDate today = [])
    ∧ (monthLt viewDate today →
        emittedDays viewDate today = List.range' 1 (daysInMonth viewDate.year viewDate.month)) := by
  refine ⟨?_, ?_, ?_, ?_⟩
  · unfold chartData
    apply List.map_congr_left
    intro i _
    rw [dayMap_fst, dayMap_snd]
  · intro hc hle
    rw [emittedDays_eq, showUntilDay_current viewDate today hc, min_eq_right hle]
  · intro hfut
    unfold chartData
    rw [emittedDays_eq, showUntilDay_future viewDate today hfut]
    simp
  · intro hpast
    rw [emittedDays_eq, showUntilDay_past viewDate today hpast, min_self]

/-- C4 witness: the three truncation modes at concrete inputs. -/
theorem chartData_truncation_witness :
    emittedDays ⟨2024, 1, 10⟩ ⟨2024, 1, 10⟩ = List.range' 1 10
    ∧ chartData [salaryJan5] ⟨2024, 3, 1⟩ ⟨2024, 1, 10⟩ = []
    ∧ emittedDays ⟨2023, 12, 25⟩ ⟨2024, 1, 10⟩ = List.range' 1 31 :=
  ⟨(chartData_truncation [] ⟨2024, 1, 10⟩ ⟨2024, 1, 10⟩).2.1 (by decide) (by decide),
   (chartData_truncation [salaryJan5] ⟨2024, 3, 1⟩ ⟨2024, 1, 10⟩).2.2.1 (by decide),
   (chartData_truncation [] ⟨2023, 12, 25⟩ ⟨2024, 1, 10⟩).2.2.2 (by decide)⟩

/-- C5: whenever total expense is strictly positive the category percentages
sum to 100 within 1e-9 (they sum to 100 exactly), and whenever total expense
is zero the category list is empty. -/
theorem category_percentage_sum (ms : List Transaction) :
    (0 < totalExpenseOf ms →
        |((categoryStats ms).map CategoryData.percentage).sum - 100| ≤ 1 / 1000000000)
    ∧ (totalExpenseOf ms = 0 → categoryStats ms = []) := by
  have hzero : totalExpenseOf ms = 0 → categoryStats ms = [] := by
    intro h
    unfold totalExpenseOf at h
    simp [categoryStats, h]
  refine ⟨?_, hzero⟩
  intro hpos
  have hne : sumAmounts (ms.filter (fun t => t.type == TransactionType.EXPENSE)) ≠ 0 := by
    unfold totalExpenseOf at hpos
    exact ne_of_gt hpos
  have hcs : categoryStats ms =
      List.insertionSort catGe
        (slicesOf (ms.filter (fun t => t.type == TransactionType.EXPENSE))) := by
    simp [categoryStats, hne]
  rw [hcs]
  have hperm := List.perm_insertionSort catGe
    (slicesOf (ms.filter (fun t => t.type == TransactionType.EXPENSE)))
  rw [(hperm.map CategoryData.percentage).sum_eq]
  have hmap : (slicesOf (ms.filter (fun t => t.type == TransactionType.EXPENSE))).map
      CategoryData.percentage =
      (groupMap (ms.filter (fun t => t.type == TransactionType.EXPENSE))).map
        (fun p => p.2 / sumAmounts (ms.filter (fun t => t.type == TransactionType.EXPENSE)) * 100) := by
    unfold slicesOf
    rw [List.map_map]
    rfl
  rw [hmap, sum_map_div_mul, snd_sum_groupMap, div_self hne]
  norm_num

/-- C5 witness: the percentage-sum bound at a concrete positive-expense input
and the empty list at a concrete zero-expense input. -/
theorem category_percentage_sum_witness :
    |((categoryStats [coffee1, coffee2, tea1]).map CategoryData.percentage).sum - 100| ≤
        1 / 1000000000
    ∧ categoryStats [salaryJan5] = [] :=
  ⟨(category_percentage_sum [coffee1, coffee2, tea1]).1
      (by norm_num [totalExpenseOf, sumAmounts, coffee1, coffee2, tea1]),
   (category_percentage_sum [salaryJan5]).2
      (by simp [totalExpenseOf, sumAmounts, salaryJan5])⟩

/-- C6: the category breakdown is sorted descending by amount, each slice's
amount is the sum of the EXPENSE amounts sharing its title with
`percentage = 100 * amount / totalExpense`, the Coffee/Tea scenario yields
[Coffee 50 (83.33%), Tea 10 (16.67%)], and equal-amount groups keep
first-encountered order. -/
theorem category_breakdown_spec (ms : List Transaction) :
    List.Sorted catGe (categoryStats ms)
    ∧ (∀ c ∈ categoryStats ms,
        c.amount = sumAmounts ((ms.filter (fun t => t.type == TransactionType.EXPENSE)).filter
            (fun t => t.title == c.name))
        ∧ c.percentage = c.amount / totalExpenseOf ms * 100)
    ∧ categoryStats [coffee1, coffee2, tea1] =
        [{ name := "Coffee", amount := 50, percentage := 250 / 3 },
         { name := "Tea", amount := 10, percentage := 50 / 3 }]
    ∧ categoryStats [expA, expB] =
        [{ name := "A", amount := 10, percentage := 50 },
         { name := "B", amount := 10, percentage := 50 }]
    ∧ (∀ a b : CategoryData,
        sumAmounts (ms.filter (fun t => t.type == TransactionType.EXPENSE)) ≠ 0 →
        List.Sublist [a, b] (slicesOf (ms.filter (fun t => t.type == TransactionType.EXPENSE))) →
        catGe a b →
        List.Sublist [a, b] (categoryStats ms)) := by
  refine ⟨?_, ?_, ?_, ?_, ?_⟩
  · by_cases h : sumAmounts (ms.filter (fun t => t.type == TransactionType.EXPENSE)) = 0
    · simp [categoryStats, h]
    · have hcs : categoryStats ms =
          List.insertionSort catGe
            (slicesOf (ms.filter (fun t => t.type == TransactionType.EXPENSE))) := by
        simp [categoryStats, h]
      rw [hcs]
      exact List.sorted_insertionSort catGe _
  · intro c hc
    by_cases h : sumAmounts (ms.filter (fun t => t.type == TransactionType.EXPENSE)) = 0
    · simp [categoryStats, h] at hc
    · have hcs : categoryStats ms =
          List.insertionSort catGe
            (slicesOf (ms.filter (fun t => t.type == TransactionType.EXPENSE))) := by
        simp [categoryStats, h]
      rw [hcs] at hc
      have hmem := (List.perm_insertionSort catGe _).mem_iff.mp hc
      rcases List.mem_map.mp hmem with ⟨p, hp, hpc⟩
      have hkey := snd_eq_lookupQ_of_mem _
        (nodup_keysOf_groupMap (ms.filter (fun t => t.type == TransactionType.EXPENSE))) p hp
      rw [lookupQ_groupMap] at hkey
      constructor
      · rw [← hpc]
        simpa using hkey
      · rw [← hpc]
        simp only [totalExpenseOf]
  · norm_num [categoryStats, slicesOf, groupMap, upsert, sumAmounts, catGe, List.insertionSort,
      List.orderedInsert, coffee1, coffee2, tea1]
  · norm_num [categoryStats, slicesOf, groupMap, upsert, sumAmounts, catGe, List.insertionSort,
      List.orderedInsert, expA, expB]
  · intro a b hne hsub hr
    have hcs : categoryStats ms =
        List.insertionSort catGe
          (slicesOf (ms.filter (fun t => t.type == TransactionType.EXPENSE))) := by
      simp [categoryStats, hne]
    rw [hcs]
    exact List.pair_sublist_insertionSort hr hsub

/-- C6 witness: the slice facts instantiated at the Coffee slice of the
Coffee/Tea scenario, and tie stability at the equal-amount scenario. -/
theorem category_breakdown_spec_witness :
    (⟨"Coffee", 50, 250 / 3⟩ : CategoryData).amount =
        sumAmounts (([coffee1, coffee2, tea1].filter
            (fun t => t.type == TransactionType.EXPENSE)).filter
          (fun t => t.title == "Coffee"))
    ∧ (⟨"Coffee", 50, 250 / 3⟩ : CategoryData).percentage =
        (⟨"Coffee", 50, 250 / 3⟩ : CategoryData).amount /
          totalExpenseOf [coffee1, coffee2, tea1] * 100
    ∧ List.Sublist [(⟨"A", 10, 50⟩ : CategoryData), ⟨"B", 10, 50⟩]
        (categoryStats [expA, expB]) := by
  have hmem : (⟨"Coffee", 50, 250 / 3⟩ : CategoryData) ∈ categoryStats [coffee1, coffee2, tea1] := by
    rw [(category_breakdown_spec [coffee1, coffee2, tea1]).2.2.1]
    exact List.mem_cons_self _ _
  have hslices : slicesOf ([expA, expB].filter (fun t => t.type == TransactionType.EXPENSE)) =
      [⟨"A", 10, 50⟩, ⟨"B", 10, 50⟩] := by
    simp [slicesOf, groupMap, upsert, sumAmounts, expA, expB]
    norm_num
  have hfacts := (category_breakdown_spec [coffee1, coffee2, tea1]).2.1 _ hmem
  refine ⟨hfacts.1, hfacts.2, ?_⟩
  refine (category_breakdown_spec [expA, expB]).2.2.2.2 _ _
    (by simp [sumAmounts, expA, expB]) (by rw [hslices]) (by norm_num [catGe])

/-- C8: with the viewed month equal to the month containing today, the newer
aggregation (month navigation) and the older aggregation (current month only)
produce identical derived stats, chart series, and category breakdowns. -/
theorem old_new_agreement (txs : List Transaction) (budget : ℚ) (viewDate today : Date)
    (hy : viewDate.year = today.year) (hm : viewDate.month = today.month) :
    stats (monthTransactions txs viewDate) budget viewDate today =
        statsOld (monthTransactions txs today) budget today
    ∧ chartData (monthTransactions txs viewDate) viewDate today =
        chartDataOld (monthTransactions txs today) today
    ∧ categoryStats (monthTransactions txs viewDate) =
        categoryStatsOld (monthTransactions txs today) := by
  have hms : monthTransactions txs viewDate = monthTransactions txs today := by
    unfold monthTransactions
    apply List.filter_congr
    intro t _
    rw [hy, hm]
  have hcur := isCurrentMonth_of_same viewDate today hy hm
  refine ⟨?_, ?_, ?_⟩
  · rw [hms]
    simp [stats, statsOld, hcur, hy, hm]
  · rw [hms]
    simp [chartData, chartDataOld, emittedDays, showUntilDay, hcur, hy, hm]
  · rw [hms]
    simp [categoryStats, categoryStatsOld]

/-- C8 witness: agreement at a concrete input where the viewed month is the
month of today. -/
theorem old_new_agreement_witness :
    stats (monthTransactions [salaryJan5, coffee1] ⟨2024, 1, 2⟩) 700 ⟨2024, 1, 2⟩ ⟨2024, 1, 15⟩ =
        statsOld (monthTransactions [salaryJan5, coffee1] ⟨2024, 1, 15⟩) 700 ⟨2024, 1, 15⟩
    ∧ chartData (monthTransactions [salaryJan5, coffee1] ⟨2024, 1, 2⟩) ⟨2024, 1, 2⟩
          ⟨2024, 1, 15⟩ =
        chartDataOld (monthTransactions [salaryJan5, coffee1] ⟨2024, 1, 15⟩) ⟨2024, 1, 15⟩
    ∧ categoryStats (monthTransactions [salaryJan5, coffee1] ⟨2024, 1, 2⟩) =
        categoryStatsOld (monthTransactions [salaryJan5, coffee1] ⟨2024, 1, 15⟩) :=
  old_new_agreement [salaryJan5, coffee1] 700 ⟨2024, 1, 2⟩ ⟨2024, 1, 15⟩ rfl rfl

/-- C10 witness: the replace branch, both reject branches, and positivity
preservation at concrete inputs. -/
theorem saveBudget_witness :
    saveBudget 5000 (some 800) = 800
    ∧ saveBudget 5000 none = 5000
    ∧ saveBudget 5000 (some (-3)) = 5000
    ∧ 0 < saveBudget 5000 (some (-3)) :=
  ⟨(saveBudget_spec 5000 (some 800)).1 800 rfl (by norm_num),
   (saveBudget_spec 5000 none).2.1 (Or.inl rfl),
   (saveBudget_spec 5000 (some (-3))).2.1 (Or.inr ⟨-3, rfl, by norm_num⟩),
   (saveBudget_spec 5000 (some (-3))).2.2 (by norm_num)⟩

end FreshFin
